import Mathlib

/-!
Verification of the response-completion and extraction engine of the
chatgpt-scrape repository (modules/responseExtraction.js, index_remote.js).

The stateful browser interactions are embedded shallowly:

* `waitForResponseComplete` polls the page for a "stop button" (the liveness
  indicator).  Each call to `page.$('[data-testid="stop-button"]')` is one
  observation; a run of the loop is determined by the infinite trace
  `trace : Nat → Bool` giving the result of the k-th observation
  (`true` = indicator present).  The `while` loop has no bound in the source,
  so it is embedded as a fuel-indexed recursion `runLoop`; `none` means the
  loop did not finish within the given fuel (so `∀ fuel, runLoop … = none`
  means the loop never terminates).  The returned value records the index of
  the next unused observation and the list of sleep durations (`delay` calls,
  in ms) performed, in order.
* The DOM is embedded as a tree of elements (with tag, attributes, children)
  and text nodes, and `extractResponseText` / `saveToFile`'s sanitization are
  translated function by function.
* `runScraper`'s argument guard (index_remote.js) is embedded over an argv
  list, with the browser pipeline abstracted as a parameter.
-/

/-- One iteration step of the `while (stopButtonExists)` loop in
`waitForResponseComplete` (responseExtraction.js lines 170-197), run with
`fuel` remaining iterations, about to make observation `i`.

Source shape of one iteration: query the stop button (observation `i`);
if present, sleep `interval` and continue at `i+1`; if absent, sleep `500`
(debounce) and re-query (observation `i+1`); if still absent the loop exits
(with no further sleep inside the loop); if it reappeared, sleep `interval`
and continue at `i+2`.  On exit the result is `(n, sleeps)` where `n` is the
index of the next unused observation and `sleeps` the `delay` calls made. -/
def runLoop (trace : Nat → Bool) (interval : Nat) : Nat → Nat → Option (Nat × List Nat)
  | 0, _ => none
  | fuel + 1, i =>
    if trace i then
      (runLoop trace interval fuel (i + 1)).map (fun r => (r.1, interval :: r.2))
    else
      if trace (i + 1) then
        (runLoop trace interval fuel (i + 2)).map (fun r => (r.1, 500 :: interval :: r.2))
      else
        some (i + 2, [500])

/-- `waitForResponseComplete` (responseExtraction.js lines 162-208): run the
polling loop from observation 0, then append the fixed 2000ms settle delay
(`await delay(2000)`, line 201) executed after the loop exits and before
extraction starts. -/
def waitForResponseComplete (trace : Nat → Bool) (interval fuel : Nat) :
    Option (Nat × List Nat) :=
  (runLoop trace interval fuel 0).map (fun r => (r.1, r.2 ++ [2000]))

/-- Helper: a completed run of the polling loop exhibits two consecutive
absent observations `j`, `j+1`; the run ends right after them and the 500ms
debounce sleep occurs in the sleep trace. -/
theorem runLoop_complete_double_absent (trace : Nat → Bool) (interval : Nat) :
    ∀ fuel i n evs, runLoop trace interval fuel i = some (n, evs) →
      ∃ j, i ≤ j ∧ trace j = false ∧ trace (j + 1) = false ∧ n = j + 2 ∧ 500 ∈ evs := by
  intro fuel
  induction fuel with
  | zero =>
    intro i n evs h
    simp [runLoop] at h
  | succ f ih =>
    intro i n evs h
    by_cases hi : trace i = true
    · simp only [runLoop, hi, if_pos, Option.map_eq_some'] at h
      obtain ⟨⟨n', evs'⟩, hr, heq⟩ := h
      obtain ⟨j, hij, h1, h2, h3, h4⟩ := ih (i + 1) n' evs' hr
      refine ⟨j, by omega, h1, h2, ?_, ?_⟩
      · have : n' = n := congrArg Prod.fst heq
        omega
      · have : interval :: evs' = evs := congrArg Prod.snd heq
        rw [← this]
        exact List.mem_cons_of_mem _ h4
    · have hi' : trace i = false := by simpa using hi
      by_cases h1 : trace (i + 1) = true
      · simp only [runLoop, hi', h1, if_pos, Bool.false_eq_true, if_false,
          Option.map_eq_some'] at h
        obtain ⟨⟨n', evs'⟩, hr, heq⟩ := h
        obtain ⟨j, hij, ha, hb, hc, hd⟩ := ih (i + 2) n' evs' hr
        refine ⟨j, by omega, ha, hb, ?_, ?_⟩
        · have : n' = n := congrArg Prod.fst heq
          omega
        · have : 500 :: interval :: evs' = evs := congrArg Prod.snd heq
          rw [← this]
          exact List.mem_cons_self _ _
      · have h1' : trace (i + 1) = false := by simpa using h1
        simp only [runLoop, hi', h1', Bool.false_eq_true, if_false,
          Option.some.injEq, Prod.mk.injEq] at h
        exact ⟨i, le_refl i, hi', h1', by omega, by rw [← h.2]; exact List.mem_singleton.mpr rfl⟩

/-- Helper: on an all-present trace the loop never finishes, whatever the fuel. -/
theorem runLoop_all_present (interval : Nat) :
    ∀ fuel i, runLoop (fun _ => true) interval fuel i = none := by
  intro fuel
  induction fuel with
  | zero => intro i; simp [runLoop]
  | succ f ih => intro i; simp [runLoop, ih]

/-- Helper: if some pair of consecutive observations `j`, `j+1` is absent,
the loop started at any `i ≤ j` finishes with enough fuel. -/
theorem runLoop_terminating (trace : Nat → Bool) (interval j : Nat)
    (hj : trace j = false) (hj1 : trace (j + 1) = false) :
    ∀ i, i ≤ j → ∃ fuel n evs, runLoop trace interval fuel i = some (n, evs) := by
  have H : ∀ d i, j - i ≤ d → i ≤ j →
      ∃ fuel n evs, runLoop trace interval fuel i = some (n, evs) := by
    intro d
    induction d with
    | zero =>
      intro i hd hij
      have hij' : i = j := by omega
      subst hij'
      exact ⟨1, i + 2, [500], by simp [runLoop, hj, hj1]⟩
    | succ d ih =>
      intro i hd hij
      by_cases hi : trace i = true
      · have hlt : i < j := by
          rcases Nat.lt_or_ge i j with hh | hh
          · exact hh
          · have : i = j := by omega
            subst this
            rw [hj] at hi
            exact absurd hi (by simp)
        obtain ⟨f, n, evs, hf⟩ := ih (i + 1) (by omega) (by omega)
        exact ⟨f + 1, n, interval :: evs, by simp [runLoop, hi, hf]⟩
      · have hi' : trace i = false := by simpa using hi
        by_cases h1 : trace (i + 1) = true
        · have hne : i ≠ j := by
            intro he
            subst he
            rw [hj1] at h1
            exact absurd h1 (by simp)
          have hne1 : i + 1 ≠ j := by
            intro he
            rw [← he] at hj
            rw [hj] at h1
            exact absurd h1 (by simp)
          obtain ⟨f, n, evs, hf⟩ := ih (i + 2) (by omega) (by omega)
          exact ⟨f + 1, n, 500 :: interval :: evs, by simp [runLoop, hi', h1, hf]⟩
        · have h1' : trace (i + 1) = false := by simpa using h1
          exact ⟨1, i + 2, [500], by simp [runLoop, hi', h1']⟩
  intro i hij
  exact H (j - i) i (le_refl _) hij

/-- C1: the completion-detection loop never finishes while the indicator is
continuously present: a completed run exhibits two consecutive absent
observations `j`, `j+1` (the poll check and the confirmation check after the
500ms debounce sleep, which occurs in the sleep trace), the run ending right
after them; and when the confirmation check finds the indicator reappeared
(`trace k = false`, `trace (k+1) = true`), the loop stays in its generating
state: it sleeps 500 then `interval` and continues polling at `k+2`. -/
theorem waitForResponseComplete_no_premature_complete (trace : Nat → Bool)
    (interval fuel i n : Nat) (evs : List Nat)
    (h : runLoop trace interval fuel i = some (n, evs)) :
    (∃ j, i ≤ j ∧ trace j = false ∧ trace (j + 1) = false ∧ n = j + 2 ∧ 500 ∈ evs) ∧
    (∀ k f, trace k = false → trace (k + 1) = true →
      runLoop trace interval (f + 1) k =
        (runLoop trace interval f (k + 2)).map (fun r => (r.1, 500 :: interval :: r.2))) := by
  constructor
  · exact runLoop_complete_double_absent trace interval fuel i n evs h
  · intro k f hk hk1
    simp [runLoop, hk, hk1]

theorem waitForResponseComplete_no_premature_complete_witness :
    (∃ j, 0 ≤ j ∧ (fun m : Nat => decide (m = 0)) j = false ∧
      (fun m : Nat => decide (m = 0)) (j + 1) = false ∧ 3 = j + 2 ∧ 500 ∈ [1000, 500]) ∧
    (∀ k f, (fun m : Nat => decide (m = 0)) k = false →
      (fun m : Nat => decide (m = 0)) (k + 1) = true →
      runLoop (fun m : Nat => decide (m = 0)) 1000 (f + 1) k =
        (runLoop (fun m : Nat => decide (m = 0)) 1000 f (k + 2)).map
          (fun r => (r.1, 500 :: 1000 :: r.2))) :=
  waitForResponseComplete_no_premature_complete (fun m : Nat => decide (m = 0))
    1000 2 0 3 [1000, 500] rfl

/-- C2: on the trace where the indicator is present at exactly the first two
observations and absent afterwards, with poll interval 1000ms, the loop sleeps
1000, 1000, then the 500ms confirmation pause, finishes (consuming
observations 0-3), and the fixed 2000ms settle delay follows before
extraction. -/
theorem waitForResponseComplete_two_tick_run :
    waitForResponseComplete (fun m => decide (m < 2)) 1000 3 =
      some (4, [1000, 1000, 500, 2000]) := rfl

/-- C8: the polling loop is unbounded and terminates exactly on a double-absent
observation pair: (a) on the all-present trace it never finishes, for every
fuel; (b) whenever some consecutive pair of observations is absent, it
finishes with some fuel; (c) a finished run implies such a pair exists. -/
theorem waitForResponseComplete_unbounded (interval : Nat) :
    (∀ fuel i, runLoop (fun _ => true) interval fuel i = none) ∧
    (∀ (trace : Nat → Bool) (j : Nat), trace j = false → trace (j + 1) = false →
      ∃ fuel n evs, runLoop trace interval fuel 0 = some (n, evs)) ∧
    (∀ (trace : Nat → Bool) (fuel n : Nat) (evs : List Nat),
      runLoop trace interval fuel 0 = some (n, evs) →
      ∃ j, trace j = false ∧ trace (j + 1) = false) := by
  refine ⟨runLoop_all_present interval, ?_, ?_⟩
  · intro trace j hj hj1
    exact runLoop_terminating trace interval j hj hj1 0 (Nat.zero_le j)
  · intro trace fuel n evs h
    obtain ⟨j, _, h1, h2, _, _⟩ := runLoop_complete_double_absent trace interval fuel 0 n evs h
    exact ⟨j, h1, h2⟩

theorem waitForResponseComplete_unbounded_witness :
    (∀ fuel i, runLoop (fun _ => true) 1000 fuel i = none) ∧
    (∀ (trace : Nat → Bool) (j : Nat), trace j = false → trace (j + 1) = false →
      ∃ fuel n evs, runLoop trace 1000 fuel 0 = some (n, evs)) ∧
    (∀ (trace : Nat → Bool) (fuel n : Nat) (evs : List Nat),
      runLoop trace 1000 fuel 0 = some (n, evs) →
      ∃ j, trace j = false ∧ trace (j + 1) = false) :=
  waitForResponseComplete_unbounded 1000

/-- Is `c` an ASCII alphanumeric character, i.e. matched by the JS character
class `[a-z0-9]` with the `i` flag (saveToFile, responseExtraction.js line
336: `.replace(/[^a-z0-9]/gi, '_')` replaces precisely the characters for
which this is `false`). -/
def isAlnumAscii (c : Char) : Bool :=
  (97 ≤ c.toNat && c.toNat ≤ 122) || (65 ≤ c.toNat && c.toNat ≤ 90) ||
    (48 ≤ c.toNat && c.toNat ≤ 57)

/-- Per-character action of the sanitization chain in `saveToFile`
(responseExtraction.js lines 334-337): the regex replacement keeps ASCII
alphanumerics and turns every other character into an underscore, and
`.toLowerCase()` then lowercases (on the surviving characters, that is ASCII
lowercasing, which `Char.toLower` implements). -/
def sanitizeChar (c : Char) : Char :=
  Char.toLower (if isAlnumAscii c then c else '_')

/-- `sanitizedQuery` in `saveToFile` (responseExtraction.js lines 334-337):
`query.substring(0, 50).replace(/[^a-z0-9]/gi, '_').toLowerCase()`, embedded
as the first 50 characters mapped through the per-character action (both
`replace` and `toLowerCase` act character by character). -/
def sanitizedQuery (query : String) : String :=
  String.mk ((query.data.take 50).map sanitizeChar)

/-- Is `c` in the filename-safe class `[a-z0-9_]`? -/
def isSafeChar (c : Char) : Bool :=
  (97 ≤ c.toNat && c.toNat ≤ 122) || (48 ≤ c.toNat && c.toNat ≤ 57) ||
    (c.toNat == 95)

/-- Helper: `Char.ofNat` on a scalar value below the surrogate range decodes
back to the same `Nat`. -/
theorem char_toNat_ofNat_of_lt (n : Nat) (h : n < 0xd800) :
    (Char.ofNat n).toNat = n := by
  rw [Char.ofNat, dif_pos (Or.inl h)]
  rfl

/-- Helper: sanitizing any character lands in `[a-z0-9_]`. -/
theorem isSafeChar_sanitizeChar (c : Char) : isSafeChar (sanitizeChar c) = true := by
  unfold sanitizeChar
  by_cases hA : isAlnumAscii c = true
  · rw [if_pos hA]
    have hA' : ((97 ≤ c.toNat ∧ c.toNat ≤ 122) ∨ (65 ≤ c.toNat ∧ c.toNat ≤ 90)) ∨
        (48 ≤ c.toNat ∧ c.toNat ≤ 57) := by
      simpa [isAlnumAscii, Bool.or_eq_true, Bool.and_eq_true, decide_eq_true_eq] using hA
    unfold Char.toLower
    by_cases hU : 65 ≤ c.toNat ∧ c.toNat ≤ 90
    · rw [if_pos (by exact ⟨hU.1, hU.2⟩)]
      have hofnat : (Char.ofNat (c.toNat + 32)).toNat = c.toNat + 32 :=
        char_toNat_ofNat_of_lt _ (by omega)
      simp only [isSafeChar, hofnat, Bool.or_eq_true, Bool.and_eq_true,
        decide_eq_true_eq, Nat.beq_eq_true_eq]
      omega
    · rw [if_neg (by exact fun hh => hU ⟨hh.1, hh.2⟩)]
      simp only [isSafeChar, Bool.or_eq_true, Bool.and_eq_true, decide_eq_true_eq,
        Nat.beq_eq_true_eq]
      omega
  · rw [if_neg hA]
    decide

/-- C3: sanitizing any query for filename use yields a string of at most 50
characters, each in `[a-z0-9_]`. -/
theorem sanitizedQuery_bounded_safe (query : String) :
    (sanitizedQuery query).length ≤ 50 ∧
      (sanitizedQuery query).data.all isSafeChar = true := by
  constructor
  · show ((query.data.take 50).map sanitizeChar).length ≤ 50
    rw [List.length_map]
    exact le_trans (List.length_take_le 50 query.data) (le_refl 50)
  · show ((query.data.take 50).map sanitizeChar).all isSafeChar = true
    rw [List.all_eq_true]
    intro c hc
    obtain ⟨a, _, rfl⟩ := List.mem_map.mp hc
    exact isSafeChar_sanitizeChar a

theorem sanitizedQuery_bounded_safe_witness :
    (sanitizedQuery "What is the Weather in SF, right now?!").length ≤ 50 ∧
      (sanitizedQuery "What is the Weather in SF, right now?!").data.all isSafeChar = true :=
  sanitizedQuery_bounded_safe "What is the Weather in SF, right now?!"

/-- A DOM node: either a text node or an element with a (lower-case) tag name,
attributes, and children.  Attribute values are stored as the page exposes
them to the extraction script; in particular an `href` value stands for the
resolved URL that the `a.href` property yields. -/
inductive Node where
  | text (s : String)
  | elem (tag : String) (attrs : List (String × String)) (children : List Node)

/-- `tagName.toLowerCase()` of an element (text nodes have no tag). -/
def tagOf : Node → String
  | Node.text _ => ""
  | Node.elem t _ _ => t

/-- The children of a node. -/
def childrenOf : Node → List Node
  | Node.text _ => []
  | Node.elem _ _ cs => cs

/-- Attribute lookup on an element. -/
def attrOf (n : Node) (key : String) : Option String :=
  match n with
  | Node.text _ => none
  | Node.elem _ attrs _ => (attrs.find? (fun p => p.1 = key)).map (fun p => p.2)

mutual

/-- `element.textContent`: the concatenation of all text in the subtree. -/
def textContent : Node → String
  | Node.text s => s
  | Node.elem _ _ cs => textContentList cs

/-- `textContent` of a forest, in order. -/
def textContentList : List Node → String
  | [] => ""
  | c :: cs => textContent c ++ textContentList cs

end

/-- JS whitespace for the purposes of `String.prototype.trim` restricted to
the characters the scraper's texts contain (space, tab, carriage return,
newline). -/
def isWS (c : Char) : Bool :=
  c = ' ' || c = '\t' || c = '\r' || c = '\n'

/-- `s.trim()`: strip leading and trailing whitespace. -/
def trimWS (s : String) : String :=
  String.mk (((s.data.dropWhile isWS).reverse.dropWhile isWS).reverse)

mutual

/-- An element together with its element descendants, in document
(pre-)order; nothing for a text node. -/
def selfAndDescendants : Node → List Node
  | Node.text _ => []
  | Node.elem t a cs => Node.elem t a cs :: descendantsList cs

/-- All element descendants of the nodes of a forest, in document (pre-)order
— the order `querySelectorAll` returns matches in. -/
def descendantsList : List Node → List Node
  | [] => []
  | n :: ns => selfAndDescendants n ++ descendantsList ns

end

/-- All element descendants of `n` (excluding `n` itself), in document order:
the scope `element.querySelectorAll` searches. -/
def descendants (n : Node) : List Node :=
  descendantsList (childrenOf n)

/-- Does the element match the citation-pill selector
`span[data-testid="webpage-citation-pill"]` (responseExtraction.js line 239)? -/
def isCitationPill (n : Node) : Bool :=
  tagOf n = "span" && attrOf n "data-testid" = some "webpage-citation-pill"

/-- `pill.querySelector('a')`: the first anchor descendant in document order
(responseExtraction.js line 243). -/
def firstAnchor (n : Node) : Option Node :=
  (descendants n).find? (fun e => tagOf e = "a")

/-- The contribution of one citation pill to the `links` array
(responseExtraction.js lines 242-247): the first anchor's `href`, provided the
anchor exists and its `href` is non-empty (`if (aTag && aTag.href)`). -/
def pillLink (pill : Node) : Option String :=
  match firstAnchor pill with
  | none => none
  | some a =>
    match attrOf a "href" with
    | none => none
    | some h => if h = "" then none else some h

/-- Link extraction over the selected article subtree (responseExtraction.js
lines 239-247): every citation pill, in document order, contributes its first
anchor's URL; no deduplication. -/
def citationLinks (article : Node) : List String :=
  ((descendants article).filter isCitationPill).filterMap pillLink

/-- The selector list of `extractText`
(`element.querySelectorAll('p, h1, h2, h3, h4, h5, h6, li, span, code, pre')`,
responseExtraction.js line 254). -/
def textTags : List String :=
  ["p", "h1", "h2", "h3", "h4", "h5", "h6", "li", "span", "code", "pre"]

/-- The parent-exclusion list of `extractText` (responseExtraction.js line
277): block tag kinds whose child text is assumed already emitted. -/
def blockTags : List String :=
  ["p", "h1", "h2", "h3", "h4", "h5", "h6", "li"]

mutual

/-- The selector-matching elements in the subtree rooted at a node (the node
itself included when it is a matching element), in document order, each
paired with the tag of its immediate parent element; `ptag` is the parent tag
of the node itself. -/
def collectTextElem (ptag : String) : Node → List (String × Node)
  | Node.text _ => []
  | Node.elem t a cs =>
    (if t ∈ textTags then [(ptag, Node.elem t a cs)] else []) ++
      collectTextElemsList t cs

/-- The selector-matching elements of a forest whose common parent element has
tag `ptag`, in document order, with their parent tags; this is
`querySelectorAll` on the text selector together with the `el.parentElement`
lookups `extractText` performs. -/
def collectTextElemsList (ptag : String) : List Node → List (String × Node)
  | [] => []
  | n :: ns => collectTextElem ptag n ++ collectTextElemsList ptag ns

end

/-- `tagName.startsWith('h')` (responseExtraction.js line 268): does the tag
begin with the character `h`?  Among the selector-matched tags this holds
exactly for the headings `h1`-`h6`. -/
def startsWithH (tag : String) : Bool :=
  match tag.data with
  | [] => false
  | c :: _ => c = 'h'

/-- The fragment `extractText` appends for one matched element
(responseExtraction.js lines 262-283), given the parent element's tag, the
element's tag and `content = el.textContent.trim()`:
empty content contributes nothing; headings get a `=`-underline framed in
blank lines; list items a bullet; `pre`/`code` a triple-backtick fence; any
other element contributes its content on a new line unless its immediate
parent is one of the block tag kinds. -/
def fragmentFor (ptag tag content : String) : String :=
  if content = "" then ""
  else if startsWithH tag then
    "\n\n" ++ content ++ "\n" ++ String.mk (List.replicate content.length '=') ++ "\n"
  else if tag = "li" then "\n• " ++ content
  else if tag = "pre" ∨ tag = "code" then "\n\x60\x60\x60\n" ++ content ++ "\n\x60\x60\x60\n"
  else if ptag ∈ blockTags then ""
  else "\n" ++ content

/-- The `text += …` accumulation of `extractText` over the matched elements. -/
def renderFrags : List (String × Node) → String
  | [] => ""
  | (pt, e) :: rest =>
    fragmentFor pt (tagOf e) (trimWS (textContent e)) ++ renderFrags rest

/-- `extractText(element)` (responseExtraction.js lines 250-287): if no
selector-matching descendant exists, fall back to the trimmed flattened text
content; otherwise accumulate the per-element fragments and trim. -/
def extractText (element : Node) : String :=
  let els := collectTextElemsList (tagOf element) (childrenOf element)
  if els.isEmpty then trimWS (textContent element)
  else trimWS (renderFrags els)

/-- The object computed inside `page.evaluate` (responseExtraction.js lines
227-293): select the last conversation-turn article; if none exists return the
not-found sentinel; otherwise extract text and citation links from it. -/
def extractResponseData (articles : List Node) : String × List String :=
  match articles.getLast? with
  | none => ("Error: Could not find assistant response article", [])
  | some article => (extractText article, citationLinks article)

/-- `extractResponseText` (responseExtraction.js lines 215-309) restricted to
its data path: the evaluate result, then the empty-result guard of lines
295-298 (`if (!responseData.text || responseData.text.trim() === '')`)
replacing an empty or whitespace-only text by the sentinel with an empty link
list.  The function is total: the empty case is a returned value, not a
thrown exception. -/
def extractResponseText (articles : List Node) : String × List String :=
  let rd := extractResponseData articles
  if trimWS rd.1 = "" then ("Error: Empty response extracted", [])
  else rd

/-- C4: whenever the selected (last) conversation-turn subtree extracts to an
empty or whitespace-only normalized text, `extractResponseText` returns the
sentinel text with an empty link list — a returned value, not an exception
(the embedded function is total). -/
theorem extractResponseText_empty_sentinel (articles : List Node) (article : Node)
    (hlast : articles.getLast? = some article)
    (hempty : trimWS (extractText article) = "") :
    extractResponseText articles = ("Error: Empty response extracted", []) := by
  unfold extractResponseText extractResponseData
  rw [hlast]
  simp [hempty]

theorem extractResponseText_empty_sentinel_witness :
    extractResponseText [Node.elem "article" [] [Node.text "   "]] =
      ("Error: Empty response extracted", []) :=
  extractResponseText_empty_sentinel [Node.elem "article" [] [Node.text "   "]]
    (Node.elem "article" [] [Node.text "   "]) rfl (by decide)

/-- C5: a heading element with non-empty trimmed content emits the content
followed by a newline and a run of `=` of the same length, framed in blank
lines; on the subtree with heading `"Title"` and paragraph `"Body"` the
extracted text is `"Title\n=====\n\nBody"` (underline of length 5, then the
paragraph). -/
theorem extractText_heading_underline (ptag tag content : String)
    (htag : tag ∈ ["h1", "h2", "h3", "h4", "h5", "h6"]) (hc : content ≠ "") :
    fragmentFor ptag tag content =
      "\n\n" ++ content ++ "\n" ++ String.mk (List.replicate content.length '=') ++ "\n" ∧
    extractText (Node.elem "article" []
        [Node.elem "h1" [] [Node.text "Title"], Node.elem "p" [] [Node.text "Body"]]) =
      "Title\n=====\n\nBody" := by
  constructor
  · have hh : startsWithH tag = true := by
      simp only [List.mem_cons, List.not_mem_nil, or_false] at htag
      rcases htag with rfl | rfl | rfl | rfl | rfl | rfl <;> decide
    simp [fragmentFor, hc, hh]
  · decide

theorem extractText_heading_underline_witness :
    fragmentFor "article" "h1" "Title" =
      "\n\n" ++ "Title" ++ "\n" ++ String.mk (List.replicate ("Title").length '=') ++ "\n" ∧
    extractText (Node.elem "article" []
        [Node.elem "h1" [] [Node.text "Title"], Node.elem "p" [] [Node.text "Body"]]) =
      "Title\n=====\n\nBody" :=
  extractText_heading_underline "article" "h1" "Title" (by decide) (by decide)

/-- A citation-marker element wrapping one anchor with the given resolved
URL. -/
def mkPill (url : String) : Node :=
  Node.elem "span" [("data-testid", "webpage-citation-pill")]
    [Node.elem "a" [("href", url)] [Node.text "cite"]]

/-- C6: on a subtree whose citation markers carry the (non-empty) URLs
`urls`, in document order, link extraction returns exactly `urls`: document
order is preserved and duplicates are not deduplicated (a repeated URL occurs
once per marker in the result). -/
theorem citationLinks_in_order_no_dedup (urls : List String)
    (h : ∀ u ∈ urls, u ≠ "") :
    citationLinks (Node.elem "article" [] (urls.map mkPill)) = urls := by
  induction urls with
  | nil => rfl
  | cons u us ih =>
    have hu : u ≠ "" := h u (List.mem_cons_self u us)
    have hrest : ∀ v ∈ us, v ≠ "" := fun v hv => h v (List.mem_cons_of_mem u hv)
    have ih' := ih hrest
    simp only [citationLinks, descendants, childrenOf, List.map_cons,
      descendantsList, selfAndDescendants, mkPill] at ih' ⊢
    simp only [List.filter_append, List.filterMap_append] at ih' ⊢
    simp only [List.filter, List.filterMap, isCitationPill, tagOf, attrOf,
      pillLink, firstAnchor, descendants, childrenOf, descendantsList,
      selfAndDescendants, List.find?, hu] at ih' ⊢
    simp only [ih']
    simp [pillLink, firstAnchor, descendants, childrenOf, descendantsList,
      selfAndDescendants, List.find?, tagOf, attrOf, hu]

theorem citationLinks_in_order_no_dedup_witness :
    citationLinks (Node.elem "article" []
        (["https://a.example", "https://b.example"].map mkPill)) =
      ["https://a.example", "https://b.example"] :=
  citationLinks_in_order_no_dedup ["https://a.example", "https://b.example"] (by decide)

/-- C7: an extracted element that is no heading, list item, `pre` or `code`
emits its trimmed content prefixed by a newline exactly when its immediate
parent's tag is not one of the block kinds `p`, `h1`-`h6`, `li`, and emits
nothing when it is; so the span nested in a paragraph contributes nothing and
the paragraph's text appears once in the output. -/
theorem extractText_parent_exclusion (ptag tag content : String)
    (hc : content ≠ "") (hh : startsWithH tag = false) (hli : tag ≠ "li")
    (hpre : tag ≠ "pre") (hcode : tag ≠ "code") :
    fragmentFor ptag tag content =
      (if ptag ∈ blockTags then "" else "\n" ++ content) ∧
    extractText (Node.elem "article" []
        [Node.elem "p" [] [Node.elem "span" [] [Node.text "X"]]]) = "X" := by
  constructor
  · rw [fragmentFor, if_neg hc, if_neg (by simp [hh]),
      if_neg hli, if_neg (by simp [hpre, hcode])]
  · decide

theorem extractText_parent_exclusion_witness :
    fragmentFor "p" "span" "X" = (if "p" ∈ blockTags then "" else "\n" ++ "X") ∧
    extractText (Node.elem "article" []
        [Node.elem "p" [] [Node.elem "span" [] [Node.text "X"]]]) = "X" :=
  extractText_parent_exclusion "p" "span" "X" (by decide) (by decide) (by decide)
    (by decide) (by decide)

/-- C10: on a subtree containing a `pre` element whose only child is a `code`
element with text `print(1)`, both elements match the selector and neither is
subject to the parent-exclusion check, so the text is emitted twice, each
occurrence wrapped in its own triple-backtick fence. -/
theorem extractText_precode_double_emission :
    extractText (Node.elem "article" []
        [Node.elem "pre" [] [Node.elem "code" [] [Node.text "print(1)"]]]) =
      "\x60\x60\x60\nprint(1)\n\x60\x60\x60\n\n\x60\x60\x60\nprint(1)\n\x60\x60\x60" := by
  decide

/-- The externally observable outcome of one `runScraper` invocation
(index_remote.js): the exit code `process.exit` receives, the `console.log`
lines written to standard output by the argument guard (logger output is
observational and omitted), whether a browsing session was created
(`setupBrowser` reached), and whether a response file was persisted
(`saveToFile` reached). -/
structure RunOutcome where
  exitCode : Nat
  stdout : List String
  sessionCreated : Bool
  fileWritten : Bool

/-- The usage message printed by `runScraper` when no query is given
(index_remote.js lines 42-43). -/
def usageLines : List String :=
  ["\nUsage: node index.js \x22Your query here\x22",
   "Example: node index.js \x22How are you doing today?\x22\n"]

/-- `runScraper` (index_remote.js lines 32-113), embedded over the argv list
(`process.argv`, whose element 2 is the first positional argument).  The
guard `if (!query)` fires when the argument is missing or the empty string
(both falsy), printing the usage lines and returning exit code 1 before any
browser work.  Past the guard, the browser pipeline (setup, dispatch,
extraction, persistence) is abstracted as `pipeline`, mapping the query to
whether the run succeeded and whether the file write was reached; a session
is created in either case. -/
def runScraper (argv : List String) (pipeline : String → Bool × Bool) : RunOutcome :=
  match argv.get? 2 with
  | none => ⟨1, usageLines, false, false⟩
  | some query =>
    if query = "" then ⟨1, usageLines, false, false⟩
    else
      let r := pipeline query
      ⟨if r.1 then 0 else 1, [], true, r.2⟩

/-- C9: invoked without a positional query argument, the process prints the
usage message to standard output and exits with code 1, with no browsing
session created and no persisted file, whatever the rest of the pipeline
would do. -/
theorem runScraper_missing_query (argv : List String)
    (pipeline : String → Bool × Bool) (h : argv.get? 2 = none) :
    runScraper argv pipeline = ⟨1, usageLines, false, false⟩ := by
  unfold runScraper
  rw [h]

theorem runScraper_missing_query_witness :
    runScraper ["node", "index_remote.js"] (fun _ => (true, true)) =
      ⟨1, usageLines, false, false⟩ :=
  runScraper_missing_query ["node", "index_remote.js"] (fun _ => (true, true)) rfl
